import Mathlib

/-!
Shallow embedding of the meander-migration analysis pipeline
(`src/meander_analysis.py`, `src/lme_model.py`, `src/data_generator.py`).

Modelling conventions:
* Python floats are idealised as exact rationals (`ℚ`) where the code only adds,
  multiplies, divides and compares, and as reals (`ℝ`) where the code takes
  square roots or evaluates trigonometric functions.
* A Python function that can `raise` is modelled with `Except`; `np.nan` results
  are modelled with `Option` (`none` = NaN).
* numpy primitives (`np.median`, `np.percentile`, `np.linspace`, `np.mean`,
  `np.std`, `np.max`) are translated from their documented exact semantics.
* The global numpy random state is modelled explicitly as an `RNG` value that
  every call of the synthetic generator receives and returns.
-/

/-! ## Rational-list models of numpy primitives -/

/-- Insertion of a value into an ascending rational list; building block of `pySort`. -/
def insertSorted (x : ℚ) : List ℚ → List ℚ
  | [] => [x]
  | y :: ys => if x ≤ y then x :: y :: ys else y :: insertSorted x ys

/-- Ascending sort of a rational list (the sort performed inside numpy's
`median` and `percentile`). -/
def pySort (l : List ℚ) : List ℚ := l.foldr insertSorted []

/-- numpy `np.mean`: sum divided by length.  (The empty case, `0/0 = 0` here and
a NaN warning in numpy, never occurs in the guarded uses below.) -/
def npMean (l : List ℚ) : ℚ := l.sum / l.length

/-- numpy `np.max` of a nonempty array: fold of `max` over the elements. -/
def npMax (l : List ℚ) : ℚ :=
  match l with
  | [] => 0
  | x :: xs => xs.foldl max x

/-- numpy `np.std` (population standard deviation): square root of the mean
squared deviation from the mean. -/
noncomputable def npStd (l : List ℚ) : ℝ :=
  Real.sqrt (((l.map (fun x => (x - npMean l) ^ 2)).sum / l.length : ℚ))

/-- numpy `np.linspace a b num`: `num` evenly spaced samples from `a` to `b`,
endpoints included (step `(b - a) / (num - 1)`). -/
def npLinspace (a b : ℚ) (num : ℕ) : List ℚ :=
  (List.range num).map (fun i : ℕ => a + (i : ℚ) * ((b - a) / ((num : ℚ) - 1)))

/-- numpy `np.percentile xs p` with the default linear-interpolation method:
the virtual index is `p / 100 * (n - 1)` and the value is interpolated between
the two neighbouring order statistics. -/
def npPercentile (xs : List ℚ) (p : ℚ) : ℚ :=
  let s := pySort xs
  let pos : ℚ := p / 100 * ((s.length : ℚ) - 1)
  let lo : ℕ := (⌊pos⌋).toNat
  let hi : ℕ := (⌈pos⌉).toNat
  s.getD lo 0 + (pos - (lo : ℚ)) * (s.getD hi 0 - s.getD lo 0)

/-- numpy `np.median`: middle element of the sorted list for odd length,
average of the two middle elements for even length. -/
def npMedian (xs : List ℚ) : ℚ :=
  let s := pySort xs
  if s.length % 2 = 1 then s.getD (s.length / 2) 0
  else (s.getD (s.length / 2 - 1) 0 + s.getD (s.length / 2) 0) / 2

/-! ## `src/meander_analysis.py` -/

/-- The `ValueError`s raised in `meander_analysis.py`, distinguished by message:
`invalidInput` = "Position array too small for given window size",
`shapeMismatch` = "Position arrays must have the same shape",
`invalidTime` = "Time delta must be positive",
`lengthMismatch` = "Curvature and migration rate arrays must have same length". -/
inductive MeanderError where
  | invalidInput
  | shapeMismatch
  | invalidTime
  | lengthMismatch
  deriving DecidableEq

/-- Squared Euclidean distance between two rows (points given as coordinate
lists), i.e. `np.sum((p2 - p1) ** 2, axis=1)` for one row pair. -/
def rowSqDist (r1 r2 : List ℚ) : ℚ := ((r1.zip r2).map (fun ab => (ab.2 - ab.1) ^ 2)).sum

/-- `calculate_migration_rate` (meander_analysis.py, lines 14-48).  Positions are
lists of coordinate rows; numpy's `shape` equality for such (rectangular)
arrays is equality of the per-row length lists together with the row count,
which `map List.length` captures.  The rate per index is the Euclidean distance
between corresponding points divided by `time_delta`. -/
noncomputable def calculate_migration_rate (positions_t1 positions_t2 : List (List ℚ))
    (time_delta : ℚ) : Except MeanderError (List ℝ) :=
  if positions_t1.map List.length ≠ positions_t2.map List.length then .error .shapeMismatch
  else if time_delta ≤ 0 then .error .invalidTime
  else .ok ((positions_t1.zip positions_t2).map
    (fun rr => Real.sqrt ((rowSqDist rr.1 rr.2 : ℚ)) / ((time_delta : ℚ) : ℝ)))

/-- Squared Euclidean distance between two planar points. -/
def sqDist (p q : ℚ × ℚ) : ℚ := (p.1 - q.1) ^ 2 + (p.2 - q.2) ^ 2

/-- `np.linalg.norm (p - q)` for planar points. -/
noncomputable def pyNorm (p q : ℚ × ℚ) : ℝ := Real.sqrt ((sqDist p q : ℚ))

/-- Twice the signed triangle area:
`(p2[0]-p1[0])*(p3[1]-p1[1]) - (p3[0]-p1[0])*(p2[1]-p1[1])`. -/
def cross2 (p1 p2 p3 : ℚ × ℚ) : ℚ :=
  (p2.1 - p1.1) * (p3.2 - p1.2) - (p3.1 - p1.1) * (p2.2 - p1.2)

/-- The three-point Menger curvature computed in the loop body of
`calculate_curvature` (meander_analysis.py, lines 78-92): `denom` is the product
of the three pairwise norms; if `denom > 1e-10` the curvature is
`4 * area / denom` with `area = 0.5 * abs(cross)`, else `0`. -/
noncomputable def mengerCurvature (p1 p2 p3 : ℚ × ℚ) : ℝ :=
  let denom := pyNorm p1 p2 * pyNorm p2 p3 * pyNorm p3 p1
  if (1e-10 : ℝ) < denom then 4 * (1 / 2 * |((cross2 p1 p2 p3 : ℚ) : ℝ)|) / denom else 0

/-- The `curvatures` array of `calculate_curvature` right after the interior
loop (meander_analysis.py, lines 70-92): zero-initialised, and for
`w/2 ≤ i < N - w/2` (with the loop body further guarded by `window_size >= 3`)
entry `i` holds the Menger curvature of the window's first point
`positions[i - w/2]`, centre point `positions[i]` and last point
`positions[i + w/2]`. -/
noncomputable def curvatureRaw (positions : List (ℚ × ℚ)) (w : ℕ) : List ℝ :=
  (List.range positions.length).map (fun i =>
    if 3 ≤ w ∧ w / 2 ≤ i ∧ i < positions.length - w / 2 then
      mengerCurvature (positions.getD (i - w / 2) (0, 0)) (positions.getD i (0, 0))
        (positions.getD (i + w / 2) (0, 0))
    else 0)

/-- The array after the first edge-fill slice assignment of
`calculate_curvature` (meander_analysis.py, line 95):
`curvatures[:w//2] = curvatures[w//2]`. -/
noncomputable def curvatureStep1 (positions : List (ℚ × ℚ)) (w : ℕ) : List ℝ :=
  (List.range positions.length).map (fun i =>
    if i < w / 2 then (curvatureRaw positions w).getD (w / 2) 0
    else (curvatureRaw positions w).getD i 0)

/-- The array after the second slice assignment
`curvatures[-w//2:] = curvatures[-w//2 - 1]`: Python floor division on the
negated window gives `-w // 2 = Int.fdiv (-w) 2` (e.g. `-5 // 2 = -3`), and a
negative index or slice bound `t` addresses position `N + t`; the right-hand
side is read after the first assignment has executed. -/
noncomputable def curvatureFinal (positions : List (ℚ × ℚ)) (w : ℕ) : List ℝ :=
  (List.range positions.length).map (fun i =>
    if (positions.length : ℤ) + Int.fdiv (-(w : ℤ)) 2 ≤ Int.ofNat i then
      (curvatureStep1 positions w).getD
        ((positions.length : ℤ) + (Int.fdiv (-(w : ℤ)) 2 - 1)).toNat 0
    else (curvatureStep1 positions w).getD i 0)

/-- `calculate_curvature` (meander_analysis.py, lines 51-98): raise when the
array is shorter than the window, else return the interior Menger curvatures
with the two edge-fill slice assignments applied. -/
noncomputable def calculate_curvature (positions : List (ℚ × ℚ)) (window_size : ℕ) :
    Except MeanderError (List ℝ) :=
  if positions.length < window_size then .error .invalidInput
  else .ok (curvatureFinal positions window_size)

/-- The bin-edge array of `analyze_migration_template` (meander_analysis.py,
lines 132-137): `bin_count + 1` evenly spaced edges from the 5th to the 95th
percentile of the curvature data. -/
def binEdges (curvatures : List ℚ) (bin_count : ℕ) : List ℚ :=
  npLinspace (npPercentile curvatures 5) (npPercentile curvatures 95) (bin_count + 1)

/-- The curvature/rate pairs selected by the mask of bin `i`:
`(curvatures >= bins[i]) & (curvatures < bins[i+1])`
(meander_analysis.py, line 144). -/
def binPairs (curvatures migration_rates : List ℚ) (bin_count i : ℕ) : List (ℚ × ℚ) :=
  (curvatures.zip migration_rates).filter (fun cr =>
    decide ((binEdges curvatures bin_count).getD i 0 ≤ cr.1) &&
    decide (cr.1 < (binEdges curvatures bin_count).getD (i + 1) 0))

/-- `migration_rates[mask]` for bin `i`. -/
def binRates (curvatures migration_rates : List ℚ) (bin_count i : ℕ) : List ℚ :=
  (binPairs curvatures migration_rates bin_count i).map (fun cr => cr.2)

/-- One iteration of the binning loop of `analyze_migration_template`
(meander_analysis.py, lines 143-147): when the mask of bin `i` selects at least
one pair, write the mean and the population standard deviation of the selected
rates into position `i` of the two result arrays, else leave the zeros. -/
noncomputable def templateStep (curvatures migration_rates : List ℚ) (bin_count : ℕ)
    (acc : List ℚ × List ℝ) (i : ℕ) : List ℚ × List ℝ :=
  let sel := binRates curvatures migration_rates bin_count i
  if 0 < sel.length then (acc.1.set i (npMean sel), acc.2.set i (npStd sel)) else acc

/-- `analyze_migration_template` (meander_analysis.py, lines 101-149).  The NaN
filter on lines 128-130 is the identity on the rational inputs modelled here.
Returns `(bin_centers, mean_rates, std_rates)`. -/
noncomputable def analyze_migration_template (curvatures migration_rates : List ℚ)
    (bin_count : ℕ) : Except MeanderError (List ℚ × List ℚ × List ℝ) :=
  if curvatures.length ≠ migration_rates.length then .error .lengthMismatch
  else
    let edges := binEdges curvatures bin_count
    let centers := (List.range bin_count).map
      (fun i => (edges.getD i 0 + edges.getD (i + 1) 0) / 2)
    let stats := (List.range bin_count).foldl
      (templateStep curvatures migration_rates bin_count)
      (List.replicate bin_count (0 : ℚ), List.replicate bin_count (0 : ℝ))
    .ok (centers, stats.1, stats.2)

/-- Pearson correlation `np.corrcoef(x, y)[0, 1]`: covariance over the product
of the population standard deviations.  (numpy yields NaN when a standard
deviation is zero; here the real division by zero yields `0`.  No claim below
depends on the correlation value.) -/
noncomputable def pearson (x y : List ℚ) : ℝ :=
  let cov : ℚ := ((x.zip y).map (fun p => (p.1 - npMean x) * (p.2 - npMean y))).sum / x.length
  ((cov : ℚ) : ℝ) / (npStd x * npStd y)

/-- Result dictionary of `compare_regulated_unregulated`. -/
structure TemplateComparison where
  regulated_bins : List ℚ
  regulated_mean_rates : List ℚ
  regulated_std_rates : List ℝ
  unregulated_bins : List ℚ
  unregulated_mean_rates : List ℚ
  unregulated_std_rates : List ℝ
  template_correlation : ℝ
  rate_suppression_factor : ℚ
  regulated_template_normalized : List ℚ
  unregulated_template_normalized : List ℚ

/-- `compare_regulated_unregulated` (meander_analysis.py, lines 152-212):
analyze both populations, normalise each mean-rate vector by its own maximum
plus `1e-10`, correlate the normalised shapes, and form the suppression factor
`mean(reg_mean) / (mean(unreg_mean) + 1e-10)`. -/
noncomputable def compare_regulated_unregulated (regulated_curvatures regulated_rates
    unregulated_curvatures unregulated_rates : List ℚ) (bin_count : ℕ) :
    Except MeanderError TemplateComparison :=
  match analyze_migration_template regulated_curvatures regulated_rates bin_count with
  | .error e => .error e
  | .ok (reg_bins, reg_mean, reg_std) =>
    match analyze_migration_template unregulated_curvatures unregulated_rates bin_count with
    | .error e => .error e
    | .ok (unreg_bins, unreg_mean, unreg_std) =>
      let reg_norm := reg_mean.map (fun m => m / (npMax reg_mean + (1e-10 : ℚ)))
      let unreg_norm := unreg_mean.map (fun m => m / (npMax unreg_mean + (1e-10 : ℚ)))
      .ok { regulated_bins := reg_bins
            regulated_mean_rates := reg_mean
            regulated_std_rates := reg_std
            unregulated_bins := unreg_bins
            unregulated_mean_rates := unreg_mean
            unregulated_std_rates := unreg_std
            template_correlation := pearson reg_norm unreg_norm
            rate_suppression_factor := npMean reg_mean / (npMean unreg_mean + (1e-10 : ℚ))
            regulated_template_normalized := reg_norm
            unregulated_template_normalized := unreg_norm }

/-! ## `src/lme_model.py` -/

/-- One row of the summary DataFrame built by `fit_lme_model`. -/
structure SummaryRow where
  coefficient : ℚ
  std_error : ℚ
  z_value : ℚ
  p_value : ℚ

/-- The summary DataFrame: predictor name to row, first match wins on lookup
(the index produced by a fit is unique). -/
abbrev SummaryDF := List (String × SummaryRow)

/-- `name in summary_df.index` / `summary_df.loc[name]`. -/
def lookupRow (df : SummaryDF) (key : String) : Option SummaryRow :=
  (df.find? (fun p => p.1 == key)).map (fun p => p.2)

/-- The interpretation dictionary of `interpret_results`; a field is `none`
exactly when the corresponding key was not inserted. -/
structure Interpretation where
  rates_suppressed : Option Bool
  suppression_coefficient : Option ℚ
  suppression_pvalue : Option ℚ
  template_invariant : Option Bool
  interaction_coefficient : Option ℚ
  interaction_pvalue : Option ℚ
  curvature_predicts_migration : Option Bool
  curvature_coefficient : Option ℚ
  curvature_pvalue : Option ℚ

/-- `interpret_results` (lme_model.py, lines 144-189): each hypothesis block
runs only when its predictor is present in the summary index. -/
def interpret_results (summary_df : SummaryDF) : Interpretation :=
  let reg := lookupRow summary_df "regulated"
  let inter := lookupRow summary_df "curvature_x_regulated"
  let curv := lookupRow summary_df "curvature"
  { rates_suppressed :=
      reg.map (fun r => decide (r.coefficient < 0) && decide (r.p_value < 1 / 20))
    suppression_coefficient := reg.map (fun r => r.coefficient)
    suppression_pvalue := reg.map (fun r => r.p_value)
    template_invariant := inter.map (fun r => decide (1 / 20 < r.p_value))
    interaction_coefficient := inter.map (fun r => r.coefficient)
    interaction_pvalue := inter.map (fun r => r.p_value)
    curvature_predicts_migration :=
      curv.map (fun r => decide (r.coefficient ≠ 0) && decide (r.p_value < 1 / 20))
    curvature_coefficient := curv.map (fun r => r.coefficient)
    curvature_pvalue := curv.map (fun r => r.p_value) }

/-- One row of the prepared observation DataFrame (output of `prepare_lme_data`). -/
structure LMERow where
  curvature : ℚ
  migration_rate : ℚ
  regulated : ℚ
  reach_id : ℚ
  time_period : ℚ
  curvature_x_regulated : ℚ

/-- The fallback design matrix of `fit_lme_model` (lme_model.py, lines 127-128):
`sm.add_constant(data[["curvature", "regulated", "curvature_x_regulated"]])`,
i.e. the fixed-effect columns of the default formula plus an intercept column. -/
def designMatrixX (data : List LMERow) : List (List ℚ) :=
  data.map (fun o => [1, o.curvature, o.regulated, o.curvature_x_regulated])

/-- What `fit_lme_model` can raise to its caller.  The code base defines no
`ModelFitError` class; the only error that can escape is the fallback fit's own
exception, modelled by `propagated`.  `modelFitError` represents the clearly
labelled error the specification postulates, so that its absence is statable. -/
inductive FitError where
  | modelFitError (msg : String)
  | propagated (msg : String)

/-- The two statsmodels entry points used by `fit_lme_model`, as oracles: the
primary `smf.mixedlm(formula, data, groups, re_formula="1").fit(method="lbfgs")`
call receives the data and the `reach_id` group column; the fallback
`sm.OLS(y, X).fit()` call receives the design matrix and the response.  A
`String` error is whatever exception the library raised. -/
structure StatsModelsOracle where
  mixedlm_fit : List LMERow → List ℚ → Except String SummaryDF
  ols_fit : List (List ℚ) → List ℚ → Except String SummaryDF

/-- `fit_lme_model` (lme_model.py, lines 71-141) with the default formula: try
the mixed model; on any exception fall back to OLS on the constant-augmented
fixed-effect columns; an exception of the fallback itself propagates to the
caller unchanged. -/
def fit_lme_model (sm : StatsModelsOracle) (data : List LMERow) : Except FitError SummaryDF :=
  match sm.mixedlm_fit data (data.map (fun o => o.reach_id)) with
  | .ok s => .ok s
  | .error _ =>
    match sm.ols_fit (designMatrixX data) (data.map (fun o => o.migration_rate)) with
    | .ok s => .ok s
    | .error e => .error (.propagated e)

/-- `calculate_geomorphic_dormancy_index` (lme_model.py, lines 192-222):
`median(regulated) / median(unregulated)` when the unregulated median is
positive, `np.nan` (modelled as `none`) otherwise. -/
def calculate_geomorphic_dormancy_index (regulated_rates unregulated_rates : List ℚ) :
    Option ℚ :=
  let regulated_median := npMedian regulated_rates
  let unregulated_median := npMedian unregulated_rates
  if 0 < unregulated_median then some (regulated_median / unregulated_median) else none

/-! ## `src/data_generator.py` -/

/-- The global numpy random state: an infinite stream of draws and a cursor.
Every numpy sampling routine is modelled as consuming successive stream values. -/
structure RNG where
  stream : ℕ → ℚ
  pos : ℕ

/-- Consume one draw. -/
def RNG.draw (g : RNG) : ℚ × RNG := (g.stream g.pos, ⟨g.stream, g.pos + 1⟩)

/-- Consume `n` draws. -/
def RNG.draws (g : RNG) (n : ℕ) : List ℚ × RNG :=
  ((List.range n).map (fun i => g.stream (g.pos + i)), ⟨g.stream, g.pos + n⟩)

/-- Model of the stream produced by numpy's Mersenne Twister for a given seed: a
fixed deterministic function of the seed.  The theorems below depend only on
this determinism, never on the concrete values (a simple congruential stand-in
is used so that witnesses evaluate). -/
def mtStream (seed : ℕ) (i : ℕ) : ℚ := (((seed * 31 + i * 17 + 7) % 97 : ℕ) : ℚ) / 97

/-- `np.random.seed(seed)`: reset the global state deterministically. -/
def npSeed (seed : ℕ) : RNG := ⟨mtStream seed, 0⟩

/-- `np.random.lognormal(mean=-3, sigma=0.8, size=n)`: consumes `n` stream
values.  The lognormal transform of the raw draws is folded into the stream
values themselves; no claim depends on the distribution's shape. -/
def npLognormal (g : RNG) (n : ℕ) : List ℚ × RNG := g.draws n

/-- `np.random.normal(mu, sigma, n)`: location-scale transform of `n` draws. -/
def npNormal (g : RNG) (mu sigma : ℚ) (n : ℕ) : List ℚ × RNG :=
  let p := g.draws n
  (p.1.map (fun u => mu + sigma * u), p.2)

/-- Scalar `np.random.uniform(a, b)`. -/
def npUniformScalar (g : RNG) (a b : ℚ) : ℚ × RNG :=
  let p := g.draw
  (a + (b - a) * p.1, p.2)

/-- Index selection for the shuffle model. -/
def pickIndex (u : ℚ) (n : ℕ) : ℕ := (⌊u * n⌋).toNat % n

/-- Draw-driven Fisher-Yates: repeatedly extract the element addressed by the
next draw.  Models the in-place `np.random.shuffle`; determinism in the draws
is all the claims use. -/
def fisherYates : List ℚ → List ℚ → List ℚ
  | l, [] => l
  | l, u :: us =>
    l.getD (pickIndex u l.length) 0 ::
      fisherYates (l.take (pickIndex u l.length) ++ l.drop (pickIndex u l.length + 1)) us

/-- `np.random.shuffle(l)`: consumes one draw per element. -/
def npShuffle (g : RNG) (l : List ℚ) : List ℚ × RNG :=
  let p := g.draws l.length
  (fisherYates l p.1, p.2)

/-- `generate_synthetic_channel` (data_generator.py, lines 13-56): downstream
coordinate `s = linspace(0, 5*wavelength, n)`, lateral sine wave of the given
amplitude with wave number `2*pi/wavelength`, plus Gaussian noise on both
coordinates. -/
noncomputable def generate_synthetic_channel (g : RNG) (n_points : ℕ)
    (amplitude wavelength : ℚ) : List (ℝ × ℝ) × RNG :=
  let s := npLinspace 0 (wavelength * 5) n_points
  let pnx := npNormal g 0 (wavelength * (1 / 100)) n_points
  let pny := npNormal pnx.2 0 (amplitude * (5 / 100)) n_points
  ((List.range n_points).map (fun i =>
     (((s.getD i 0 + pnx.1.getD i 0 : ℚ) : ℝ),
      ((amplitude : ℚ) : ℝ) * Real.sin (2 * Real.pi / ((wavelength : ℚ) : ℝ)
          * ((s.getD i 0 : ℚ) : ℝ))
        + ((pny.1.getD i 0 : ℚ) : ℝ))),
   pny.2)

/-- The body of the per-reach loop of `generate_migration_data` (data_generator.py,
lines 137-159): random amplitude and wavelength, a base channel, and migrated
positions displaced by `rate * time_delta` at a uniform random angle. -/
noncomputable def reachPositions (g : RNG) (points_per_reach : ℕ) (local_rates : List ℚ)
    (time_delta : ℚ) : (List (ℝ × ℝ) × List (ℝ × ℝ)) × RNG :=
  let pa := npUniformScalar g 30 70
  let pw := npUniformScalar pa.2 150 250
  let pc := generate_synthetic_channel pw.2 points_per_reach pa.1 pw.1
  let pu := pc.2.draws points_per_reach
  let pos_t2 := (List.range points_per_reach).map (fun j =>
    let p := pc.1.getD j (0, 0)
    let angle : ℝ := 2 * Real.pi * ((pu.1.getD j 0 : ℚ) : ℝ)
    (p.1 + ((local_rates.getD j 0 : ℚ) : ℝ) * ((time_delta : ℚ) : ℝ) * Real.cos angle,
     p.2 + ((local_rates.getD j 0 : ℚ) : ℝ) * ((time_delta : ℚ) : ℝ) * Real.sin angle))
  ((pc.1, pos_t2), pu.2)

/-- The dictionary returned by `generate_migration_data`. -/
structure GenData where
  curvatures : List ℚ
  migration_rates : List ℚ
  regulation_status : List ℚ
  reach_ids : List ℚ
  time_periods : List ℚ
  positions_t1 : List (ℝ × ℝ)
  positions_t2 : List (ℝ × ℝ)
  time_delta : ℚ
  n_reaches : ℕ
  points_per_reach : ℕ

/-- `generate_migration_data` (data_generator.py, lines 59-178).  `ambient` is
the global numpy random state on entry; a non-`none` `random_seed` resets it via
`np.random.seed` before any draw.  Curvatures are clipped to `[0.001, 0.5]`,
regulation is assigned to `int(n_reaches * regulated_fraction)` reaches and
shuffled, rates are `slope * curvature`, suppressed on regulated reaches, plus
noise, clamped at `0` by `np.maximum`; positions are generated reach by reach. -/
noncomputable def generate_migration_data (n_reaches points_per_reach : ℕ)
    (regulated_fraction time_delta suppression_factor curvature_migration_slope
     noise_level : ℚ) (random_seed : Option ℕ) (ambient : RNG) : GenData × RNG :=
  let g0 := random_seed.elim ambient npSeed
  let n_total := n_reaches * points_per_reach
  let pc := npLognormal g0 n_total
  let curvatures := pc.1.map (fun x => min (max x (1 / 1000)) (1 / 2))
  let n_regulated := (⌊(n_reaches : ℚ) * regulated_fraction⌋).toNat
  let reach_regulation : List ℚ :=
    List.replicate n_regulated 1 ++ List.replicate (n_reaches - n_regulated) 0
  let psh := npShuffle pc.2 reach_regulation
  let regulation_status := psh.1.flatMap (fun v => List.replicate points_per_reach v)
  let reach_ids : List ℚ :=
    (List.range n_reaches).flatMap (fun i => List.replicate points_per_reach ((i : ℕ) : ℚ))
  let base_rates := curvatures.map (fun c => curvature_migration_slope * c)
  let suppressed := List.zipWith
    (fun st b => if st = (1 : ℚ) then b * suppression_factor else b)
    regulation_status base_rates
  let pn := npNormal psh.2 0 noise_level n_total
  let migration_rates := (List.zipWith (fun r e => r + e) suppressed pn.1).map
    (fun r => max r 0)
  let pl := (List.range n_reaches).foldl
    (fun acc i =>
      let rr := reachPositions acc.2.2 points_per_reach
        ((migration_rates.drop (i * points_per_reach)).take points_per_reach) time_delta
      (acc.1 ++ rr.1.1, acc.2.1 ++ rr.1.2, rr.2))
    (([] : List (ℝ × ℝ)), ([] : List (ℝ × ℝ)), pn.2)
  ({ curvatures := curvatures
     migration_rates := migration_rates
     regulation_status := regulation_status
     reach_ids := reach_ids
     time_periods := List.replicate n_total 0
     positions_t1 := pl.1
     positions_t2 := pl.2.1
     time_delta := time_delta
     n_reaches := n_reaches
     points_per_reach := points_per_reach },
   pl.2.2)

/-! ## Concrete inputs used by counterexamples and witnesses -/

/-- Four points whose first three are collinear and whose last triple is a right
isosceles triangle: the interior Menger curvature at index 1 is `0` and at
index 2 is `√2`. -/
def ptsOverwrite : List (ℚ × ℚ) := [(0, 0), (1, 0), (2, 0), (2, 1)]

/-- An oracle whose mixed-effects fit and OLS fit both raise. -/
def oracleBothFail : StatsModelsOracle :=
  ⟨fun _ _ => .error "mixedlm: LinAlgError", fun _ _ => .error "OLS: SVD did not converge"⟩

/-- A demonstration summary for the fallback path. -/
def demoSummary : SummaryDF :=
  [("const", ⟨1, 1, 1, 1 / 2⟩), ("curvature", ⟨2, 1 / 2, 4, 1 / 100⟩)]

/-- An oracle whose mixed-effects fit raises and whose OLS fit succeeds. -/
def oracleFallbackOk : StatsModelsOracle :=
  ⟨fun _ _ => .error "mixedlm did not converge", fun _ _ => .ok demoSummary⟩

/-- A summary DataFrame with all three tested predictors present, using the
specification's example numbers (regulated coefficient -0.8 with p = 0.001,
interaction p = 0.6, curvature coefficient 2 with p = 0.01). -/
def demoFullSummary : SummaryDF :=
  [("const", ⟨1, 1, 1, 1 / 2⟩),
   ("curvature", ⟨2, 1 / 2, 4, 1 / 100⟩),
   ("regulated", ⟨-4 / 5, 1 / 10, -8, 1 / 1000⟩),
   ("curvature_x_regulated", ⟨1 / 10, 1, 1 / 10, 3 / 5⟩)]

/-- A point list is collinear when a single nondegenerate linear equation
`a*x + b*y = c` fits every point. -/
def CollinearPts (ps : List (ℚ × ℚ)) : Prop :=
  ∃ a b c : ℚ, (a ≠ 0 ∨ b ≠ 0) ∧ ∀ p ∈ ps, a * p.1 + b * p.2 = c

/-! ## Helper lemmas -/

theorem getD_range_map {α : Type} (f : ℕ → α) (n i : ℕ) (d : α) :
    ((List.range n).map f).getD i d = if i < n then f i else d := by
  rcases lt_or_ge i n with h | h
  · rw [List.getD_eq_getElem _ d (by simpa using h)]
    rw [List.getElem_map]
    simp [h]
  · rw [List.getD_eq_default _ d (by simpa using h), if_neg (by omega)]

theorem getD_mem {α : Type} (l : List α) (i : ℕ) (d : α) (h : i < l.length) :
    l.getD i d ∈ l := by
  rw [List.getD_eq_getElem l d h]
  exact List.getElem_mem h

theorem getD_of_all_eq {α : Type} (l : List α) (d : α) (h : ∀ x ∈ l, x = d) (i : ℕ) :
    l.getD i d = d := by
  rcases lt_or_ge i l.length with hi | hi
  · exact h _ (getD_mem l i d hi)
  · exact List.getD_eq_default _ d hi

theorem getD_nonneg_of_all_nonneg (l : List ℚ) (h : ∀ x ∈ l, 0 ≤ x) (i : ℕ) :
    0 ≤ l.getD i 0 := by
  rcases lt_or_ge i l.length with hi | hi
  · exact h _ (getD_mem l i 0 hi)
  · rw [List.getD_eq_default _ 0 hi]

theorem mem_insertSorted (x z : ℚ) (l : List ℚ) :
    z ∈ insertSorted x l ↔ z = x ∨ z ∈ l := by
  induction l with
  | nil => simp [insertSorted]
  | cons y ys ih =>
    by_cases hxy : x ≤ y
    · simp [insertSorted, hxy]
    · simp [insertSorted, hxy, ih]
      tauto

theorem mem_pySort (z : ℚ) (l : List ℚ) : z ∈ pySort l ↔ z ∈ l := by
  induction l with
  | nil => simp [pySort]
  | cons y ys ih =>
    have hstep : pySort (y :: ys) = insertSorted y (pySort ys) := rfl
    rw [hstep, mem_insertSorted]
    simp [ih]

theorem length_insertSorted (x : ℚ) (l : List ℚ) :
    (insertSorted x l).length = l.length + 1 := by
  induction l with
  | nil => rfl
  | cons y ys ih =>
    by_cases hxy : x ≤ y
    · simp [insertSorted, hxy]
    · simp [insertSorted, hxy, ih]

theorem length_pySort (l : List ℚ) : (pySort l).length = l.length := by
  induction l with
  | nil => rfl
  | cons y ys ih =>
    have hstep : pySort (y :: ys) = insertSorted y (pySort ys) := rfl
    rw [hstep, length_insertSorted, ih]
    rfl

theorem le_foldl_max (l : List ℚ) (a : ℚ) : a ≤ l.foldl max a := by
  induction l generalizing a with
  | nil => simp
  | cons b bs ih => exact le_trans (le_max_left a b) (ih (max a b))

theorem mem_le_foldl_max (l : List ℚ) (a x : ℚ) (h : x ∈ l) : x ≤ l.foldl max a := by
  induction l generalizing a with
  | nil => cases h
  | cons b bs ih =>
    rcases List.mem_cons.mp h with rfl | hx
    · exact le_trans (le_max_right a x) (le_foldl_max bs (max a x))
    · exact ih (max a b) hx

theorem mem_le_npMax (l : List ℚ) (x : ℚ) (h : x ∈ l) : x ≤ npMax l := by
  cases l with
  | nil => cases h
  | cons b bs =>
    rcases List.mem_cons.mp h with rfl | hx
    · exact le_foldl_max bs x
    · exact mem_le_foldl_max bs b x hx

theorem npMedian_all_zero (l : List ℚ) (h : ∀ x ∈ l, x = 0) : npMedian l = 0 := by
  have hs : ∀ x ∈ pySort l, x = 0 := fun x hx => h x ((mem_pySort x l).mp hx)
  simp only [npMedian]
  rw [getD_of_all_eq _ 0 hs, getD_of_all_eq _ 0 hs]
  norm_num

theorem npMedian_nonneg (l : List ℚ) (h : ∀ x ∈ l, 0 ≤ x) : 0 ≤ npMedian l := by
  have hs : ∀ x ∈ pySort l, 0 ≤ x := fun x hx => h x ((mem_pySort x l).mp hx)
  simp only [npMedian]
  split
  · exact getD_nonneg_of_all_nonneg _ hs _
  · have h1 := getD_nonneg_of_all_nonneg _ hs ((pySort l).length / 2 - 1)
    have h2 := getD_nonneg_of_all_nonneg _ hs ((pySort l).length / 2)
    linarith

/-! ## Claim C4: the geomorphic dormancy index -/

/-- C4.  `calculate_geomorphic_dormancy_index` returns the ratio of the medians
whenever the unregulated median is positive; it returns NaN (`none`) when the
unregulated median is zero (never an error or infinity); the medians of
nonnegative rate arrays are nonnegative, so the two cases are exhaustive for
rate data; on `[1.0, 1.5, 2.0]` and `[4.0, 5.0, 6.0]` it returns exactly
`1.5 / 5.0 = 0.3`; and with an all-zero regulated array and a positive
unregulated median it returns exactly `0`. -/
theorem dormancy_index_spec :
    (∀ reg unreg : List ℚ, 0 < npMedian unreg →
      calculate_geomorphic_dormancy_index reg unreg = some (npMedian reg / npMedian unreg)) ∧
    (∀ reg unreg : List ℚ, npMedian unreg = 0 →
      calculate_geomorphic_dormancy_index reg unreg = none) ∧
    (∀ unreg : List ℚ, (∀ x ∈ unreg, 0 ≤ x) → 0 ≤ npMedian unreg) ∧
    calculate_geomorphic_dormancy_index [1, 3 / 2, 2] [4, 5, 6] = some (3 / 10) ∧
    (∀ reg unreg : List ℚ, reg ≠ [] → (∀ x ∈ reg, x = 0) → 0 < npMedian unreg →
      calculate_geomorphic_dormancy_index reg unreg = some 0)
    := by
  refine ⟨?_, ?_, ?_, ?_, ?_⟩
  · intro reg unreg h
    simp [calculate_geomorphic_dormancy_index, h]
  · intro reg unreg h
    simp [calculate_geomorphic_dormancy_index, h]
  · intro unreg h
    exact npMedian_nonneg unreg h
  · norm_num [calculate_geomorphic_dormancy_index, npMedian, pySort, insertSorted]
  · intro reg unreg _ hzero h
    simp [calculate_geomorphic_dormancy_index, h, npMedian_all_zero reg hzero]

/-- Witness for C4: concrete instantiation of the all-zero clause. -/
theorem dormancy_index_spec_witness :
    ([0, 0, 0] : List ℚ) ≠ [] ∧ (0 : ℚ) < npMedian [4, 5, 6] ∧
    calculate_geomorphic_dormancy_index [0, 0, 0] [4, 5, 6] = some 0 :=
  ⟨by decide, by decide,
    dormancy_index_spec.2.2.2.2 [0, 0, 0] [4, 5, 6] (by decide) (by decide) (by decide)⟩

/-! ## Claim C2: the regression fallback -/

/-- Counterexample for C2 as stated: with a prepared observation set on which
both the mixed-effects fit and the OLS fallback raise, `fit_lme_model` neither
returns an OLS result nor raises a `ModelFitError`; the fallback's own
exception propagates to the caller unlabelled (no `ModelFitError` class exists
in the code base). -/
theorem fit_lme_model_both_fail_unlabeled :
    fit_lme_model oracleBothFail [] = .error (.propagated "OLS: SVD did not converge") ∧
    ∀ msg, FitError.propagated "OLS: SVD did not converge" ≠ FitError.modelFitError msg := by
  constructor
  · rfl
  · intro msg h
    cases h

/-- C2 amended.  `fit_lme_model` never propagates an exception of the primary
mixed-effects fit: when the primary fit succeeds its summary is returned, and on
any primary-fit failure the result is exactly that of the OLS fit on the
constant-augmented fixed-effect design matrix, the OLS exception (if any)
propagating unchanged; no clearly labelled `ModelFitError` is ever raised
because the code defines none. -/
theorem fit_lme_model_fallback_behavior (sm : StatsModelsOracle) (data : List LMERow) :
    (∀ s, sm.mixedlm_fit data (data.map (fun o => o.reach_id)) = .ok s →
      fit_lme_model sm data = .ok s) ∧
    (∀ e, sm.mixedlm_fit data (data.map (fun o => o.reach_id)) = .error e →
      fit_lme_model sm data =
        (sm.ols_fit (designMatrixX data) (data.map (fun o => o.migration_rate))).mapError
          FitError.propagated) ∧
    (∀ msg, fit_lme_model sm data ≠ .error (.modelFitError msg)) := by
  refine ⟨?_, ?_, ?_⟩
  · intro s hs
    simp [fit_lme_model, hs]
  · intro e he
    cases hols : sm.ols_fit (designMatrixX data) (data.map (fun o => o.migration_rate)) with
    | ok s => simp [fit_lme_model, he, hols, Except.mapError]
    | error e2 => simp [fit_lme_model, he, hols, Except.mapError]
  · intro msg
    cases hmx : sm.mixedlm_fit data (data.map (fun o => o.reach_id)) with
    | ok s => simp [fit_lme_model, hmx]
    | error e =>
      cases hols : sm.ols_fit (designMatrixX data) (data.map (fun o => o.migration_rate)) with
      | ok s => simp [fit_lme_model, hmx, hols]
      | error e2 => simp [fit_lme_model, hmx, hols]

/-- Witness for C2's amended theorem: a concrete oracle whose primary fit fails
and whose fallback succeeds takes the fallback path. -/
theorem fit_lme_model_fallback_behavior_witness :
    fit_lme_model oracleFallbackOk [] =
      (oracleFallbackOk.ols_fit (designMatrixX [])
        (([] : List LMERow).map (fun o => o.migration_rate))).mapError FitError.propagated :=
  (fit_lme_model_fallback_behavior oracleFallbackOk []).2.1 "mixedlm did not converge" rfl

/-! ## Claim C3: interpretation thresholds -/

/-- C3.  `interpret_results` sets `rates_suppressed` to true exactly when the
regulated coefficient is negative with p-value below 0.05, `template_invariant`
to true exactly when the interaction p-value exceeds 0.05,
`curvature_predicts_migration` to true exactly when the curvature coefficient is
nonzero with p-value below 0.05, and omits (returns `none` for) every
hypothesis whose predictor is absent from the summary. -/
theorem interpret_results_spec (df : SummaryDF) :
    ((interpret_results df).rates_suppressed = some true ↔
      ∃ row, lookupRow df "regulated" = some row ∧
        row.coefficient < 0 ∧ row.p_value < 1 / 20) ∧
    ((interpret_results df).template_invariant = some true ↔
      ∃ row, lookupRow df "curvature_x_regulated" = some row ∧ 1 / 20 < row.p_value) ∧
    ((interpret_results df).curvature_predicts_migration = some true ↔
      ∃ row, lookupRow df "curvature" = some row ∧
        row.coefficient ≠ 0 ∧ row.p_value < 1 / 20) ∧
    (lookupRow df "regulated" = none →
      (interpret_results df).rates_suppressed = none ∧
      (interpret_results df).suppression_coefficient = none ∧
      (interpret_results df).suppression_pvalue = none) ∧
    (lookupRow df "curvature_x_regulated" = none →
      (interpret_results df).template_invariant = none ∧
      (interpret_results df).interaction_coefficient = none ∧
      (interpret_results df).interaction_pvalue = none) ∧
    (lookupRow df "curvature" = none →
      (interpret_results df).curvature_predicts_migration = none ∧
      (interpret_results df).curvature_coefficient = none ∧
      (interpret_results df).curvature_pvalue = none) := by
  refine ⟨?_, ?_, ?_, ?_, ?_, ?_⟩
  · cases h : lookupRow df "regulated" with
    | none => simp [interpret_results, h]
    | some row => simp [interpret_results, h, decide_eq_true_iff]
  · cases h : lookupRow df "curvature_x_regulated" with
    | none => simp [interpret_results, h]
    | some row => simp [interpret_results, h, decide_eq_true_iff]
  · cases h : lookupRow df "curvature" with
    | none => simp [interpret_results, h]
    | some row => simp [interpret_results, h, decide_eq_true_iff]
  · intro h
    simp [interpret_results, h]
  · intro h
    simp [interpret_results, h]
  · intro h
    simp [interpret_results, h]

/-- Witness for C3: on the specification's example numbers (regulated
coefficient -0.8 with p = 0.001, interaction p = 0.6, curvature coefficient 2
with p = 0.01) all three hypothesis flags are `some true`. -/
theorem interpret_results_spec_witness :
    (interpret_results demoFullSummary).rates_suppressed = some true ∧
    (interpret_results demoFullSummary).template_invariant = some true ∧
    (interpret_results demoFullSummary).curvature_predicts_migration = some true :=
  ⟨((interpret_results_spec demoFullSummary).1).mpr
      ⟨⟨-4 / 5, 1 / 10, -8, 1 / 1000⟩, rfl, by norm_num, by norm_num⟩,
   ((interpret_results_spec demoFullSummary).2.1).mpr
      ⟨⟨1 / 10, 1, 1 / 10, 3 / 5⟩, rfl, by norm_num⟩,
   ((interpret_results_spec demoFullSummary).2.2.1).mpr
      ⟨⟨2, 1 / 2, 4, 1 / 100⟩, rfl, by norm_num, by norm_num⟩⟩

/-! ## Claim C5: migration-rate validation and values -/

/-- C5.  `calculate_migration_rate` raises the shape-mismatch error whenever the
two position arrays differ in shape (length or per-row dimensionality), raises
the invalid-time error whenever `time_delta <= 0` (shapes agreeing), and under
the preconditions returns one value per index equal to the Euclidean distance
between corresponding points divided by `time_delta`, each nonnegative; the
error cases return no partial result. -/
theorem calculate_migration_rate_spec (positions_t1 positions_t2 : List (List ℚ))
    (time_delta : ℚ) :
    (positions_t1.map List.length ≠ positions_t2.map List.length →
      calculate_migration_rate positions_t1 positions_t2 time_delta = .error .shapeMismatch) ∧
    (positions_t1.map List.length = positions_t2.map List.length → time_delta ≤ 0 →
      calculate_migration_rate positions_t1 positions_t2 time_delta = .error .invalidTime) ∧
    (positions_t1.map List.length = positions_t2.map List.length → 0 < time_delta →
      ∃ rates, calculate_migration_rate positions_t1 positions_t2 time_delta = .ok rates ∧
        rates.length = positions_t1.length ∧
        ∀ i, i < positions_t1.length →
          rates.getD i 0 =
            Real.sqrt ((rowSqDist (positions_t1.getD i []) (positions_t2.getD i []) : ℚ)) /
              ((time_delta : ℚ) : ℝ) ∧
          0 ≤ rates.getD i 0) := by
  refine ⟨?_, ?_, ?_⟩
  · intro h
    simp [calculate_migration_rate, h]
  · intro h ht
    simp [calculate_migration_rate, h, ht]
  · intro h ht
    have hlen : positions_t1.length = positions_t2.length := by
      have h2 := congrArg List.length h
      simpa using h2
    refine ⟨(positions_t1.zip positions_t2).map
      (fun rr => Real.sqrt ((rowSqDist rr.1 rr.2 : ℚ)) / ((time_delta : ℚ) : ℝ)), ?_, ?_, ?_⟩
    · simp [calculate_migration_rate, h, not_le.mpr ht]
    · simp [hlen]
    · intro i hi
      have hi2 : i < positions_t2.length := hlen ▸ hi
      have hiz : i < ((positions_t1.zip positions_t2).map
          (fun rr => Real.sqrt ((rowSqDist rr.1 rr.2 : ℚ)) / ((time_delta : ℚ) : ℝ))).length := by
        simpa [hlen] using hi2
      constructor
      · rw [List.getD_eq_getElem _ _ hiz, List.getElem_map, List.getElem_zip,
          List.getD_eq_getElem positions_t1 [] hi, List.getD_eq_getElem positions_t2 [] hi2]
      · rw [List.getD_eq_getElem _ _ hiz, List.getElem_map]
        apply div_nonneg (Real.sqrt_nonneg _)
        exact_mod_cast le_of_lt ht

/-- Witness for C5: concrete single-point arrays with positive time. -/
theorem calculate_migration_rate_spec_witness :
    ∃ rates, calculate_migration_rate [[0, 0]] [[3, 4]] 5 = .ok rates ∧
      rates.length = ([[0, 0]] : List (List ℚ)).length ∧
      ∀ i, i < ([[0, 0]] : List (List ℚ)).length →
        rates.getD i 0 =
          Real.sqrt ((rowSqDist (([[0, 0]] : List (List ℚ)).getD i [])
            (([[3, 4]] : List (List ℚ)).getD i []) : ℚ)) / (((5 : ℚ) : ℚ) : ℝ) ∧
        0 ≤ rates.getD i 0 :=
  (calculate_migration_rate_spec [[0, 0]] [[3, 4]] 5).2.2 (by decide) (by norm_num)

/-! ## Claim C8: collinear input gives identically zero curvature -/

theorem cross2_eq_zero_of_line (a b c : ℚ) (hab : a ≠ 0 ∨ b ≠ 0) (p1 p2 p3 : ℚ × ℚ)
    (h1 : a * p1.1 + b * p1.2 = c) (h2 : a * p2.1 + b * p2.2 = c)
    (h3 : a * p3.1 + b * p3.2 = c) : cross2 p1 p2 p3 = 0 := by
  have hA : a * (p2.1 - p1.1) + b * (p2.2 - p1.2) = 0 := by linear_combination h2 - h1
  have hB : a * (p3.1 - p1.1) + b * (p3.2 - p1.2) = 0 := by linear_combination h3 - h1
  have ha : a * cross2 p1 p2 p3 = 0 := by
    simp only [cross2]
    linear_combination (p3.2 - p1.2) * hA - (p2.2 - p1.2) * hB
  have hb : b * cross2 p1 p2 p3 = 0 := by
    simp only [cross2]
    linear_combination (-(p3.1 - p1.1)) * hA + (p2.1 - p1.1) * hB
  rcases hab with h | h
  · exact (mul_eq_zero.mp ha).resolve_left h
  · exact (mul_eq_zero.mp hb).resolve_left h

theorem mengerCurvature_eq_zero (p1 p2 p3 : ℚ × ℚ) (h : cross2 p1 p2 p3 = 0) :
    mengerCurvature p1 p2 p3 = 0 := by
  simp [mengerCurvature, h]

theorem curvatureRaw_all_zero (ps : List (ℚ × ℚ)) (w : ℕ) (hcol : CollinearPts ps) :
    ∀ x ∈ curvatureRaw ps w, x = 0 := by
  obtain ⟨a, b, c, hab, hline⟩ := hcol
  intro x hx
  simp only [curvatureRaw, List.mem_map, List.mem_range] at hx
  obtain ⟨i, hi, rfl⟩ := hx
  split
  case isTrue hcond =>
    apply mengerCurvature_eq_zero
    apply cross2_eq_zero_of_line a b c hab
    · exact hline _ (getD_mem _ _ _ (by omega))
    · exact hline _ (getD_mem _ _ _ hi)
    · exact hline _ (getD_mem _ _ _ (by omega))
  case isFalse hcond => rfl

/-- C8.  On a collinear point list of length at least `window_size`,
`calculate_curvature` returns the all-zero series: every interior Menger
curvature degenerates to `0` (in both branches of the epsilon guard, since the
triangle area vanishes) and the edge fills copy zeros. -/
theorem calculate_curvature_collinear (ps : List (ℚ × ℚ)) (w : ℕ) (hw : w ≤ ps.length)
    (hcol : CollinearPts ps) :
    calculate_curvature ps w = .ok (List.replicate ps.length 0) := by
  have hraw := curvatureRaw_all_zero ps w hcol
  have hstep1 : ∀ x ∈ curvatureStep1 ps w, x = 0 := by
    intro x hx
    simp only [curvatureStep1, List.mem_map, List.mem_range] at hx
    obtain ⟨i, _, rfl⟩ := hx
    split
    · exact getD_of_all_eq _ 0 hraw _
    · exact getD_of_all_eq _ 0 hraw _
  have hfinal : ∀ x ∈ curvatureFinal ps w, x = 0 := by
    intro x hx
    simp only [curvatureFinal, List.mem_map, List.mem_range] at hx
    obtain ⟨i, _, rfl⟩ := hx
    split
    · exact getD_of_all_eq _ 0 hstep1 _
    · exact getD_of_all_eq _ 0 hstep1 _
  have hw2 : ¬ ps.length < w := not_lt.mpr hw
  simp only [calculate_curvature, hw2, if_false]
  congr 1
  rw [List.eq_replicate_iff]
  exact ⟨by simp [curvatureFinal], hfinal⟩

/-- Witness for C8: three collinear points with window 3. -/
theorem calculate_curvature_collinear_witness :
    (3 : ℕ) ≤ ([(0, 0), (1, 0), (2, 0)] : List (ℚ × ℚ)).length ∧
    CollinearPts ([(0, 0), (1, 0), (2, 0)] : List (ℚ × ℚ)) ∧
    calculate_curvature ([(0, 0), (1, 0), (2, 0)] : List (ℚ × ℚ)) 3 =
      .ok (List.replicate 3 0) :=
  have hline : CollinearPts ([(0, 0), (1, 0), (2, 0)] : List (ℚ × ℚ)) :=
    ⟨0, 1, 0, Or.inr one_ne_zero, by
      intro p hp
      simp only [List.mem_cons, List.not_mem_nil, or_false] at hp
      rcases hp with rfl | rfl | rfl <;> norm_num⟩
  ⟨by decide, hline,
    calculate_curvature_collinear ([(0, 0), (1, 0), (2, 0)] : List (ℚ × ℚ)) 3 (by decide) hline⟩

/-! ## Claim C1: the edge fill overwrites an interior value (code bug) -/

theorem curvatureOverwrite_m2 :
    mengerCurvature ((1 : ℚ), (0 : ℚ)) (2, 0) (2, 1) = Real.sqrt 2 := by
  have hsqrt1 : (1 : ℝ) ≤ Real.sqrt 2 := by
    rw [show (1 : ℝ) = Real.sqrt 1 from Real.sqrt_one.symm]
    exact Real.sqrt_le_sqrt (by norm_num)
  simp only [mengerCurvature, pyNorm, sqDist, cross2]
  norm_num
  intro h
  linarith

theorem curvatureOverwrite_raw1 : (curvatureRaw ptsOverwrite 3).getD 1 0 = 0 := by
  simp only [curvatureRaw]
  rw [getD_range_map]
  norm_num [ptsOverwrite]
  exact mengerCurvature_eq_zero _ _ _ (by norm_num [cross2])

theorem curvatureOverwrite_raw2 : (curvatureRaw ptsOverwrite 3).getD 2 0 = Real.sqrt 2 := by
  simp only [curvatureRaw]
  rw [getD_range_map]
  norm_num [ptsOverwrite]
  exact curvatureOverwrite_m2

theorem curvatureOverwrite_step1 :
    ∀ j : ℕ, j ≤ 1 → (curvatureStep1 ptsOverwrite 3).getD j 0 = 0 := by
  intro j hj
  simp only [curvatureStep1]
  rw [getD_range_map]
  interval_cases j
  · rw [if_pos (by norm_num [ptsOverwrite]), if_pos (by norm_num)]
    exact curvatureOverwrite_raw1
  · rw [if_pos (by norm_num [ptsOverwrite]), if_neg (by norm_num)]
    exact curvatureOverwrite_raw1

theorem curvatureOverwrite_final : curvatureFinal ptsOverwrite 3 = List.replicate 4 0 := by
  rw [List.eq_replicate_iff]
  constructor
  · simp [curvatureFinal, ptsOverwrite]
  · intro x hx
    simp only [curvatureFinal, List.mem_map, List.mem_range] at hx
    obtain ⟨i, hi, rfl⟩ := hx
    have hfd : Int.fdiv (-((3 : ℕ) : ℤ)) 2 = -2 := by decide
    have hlen4 : ptsOverwrite.length = 4 := rfl
    split
    case isTrue hcond =>
      exact curvatureOverwrite_step1 _ (by decide)
    case isFalse hcond =>
      rw [hlen4, hfd, Int.ofNat_eq_natCast] at hcond
      have hi2 : i ≤ 1 := by omega
      exact curvatureOverwrite_step1 i hi2

/-- C1 (code bug).  On `[(0,0),(1,0),(2,0),(2,1)]` with window size 3 the
interior loop stores the Menger curvature `√2` at index 2 (and `0` at
index 1); but Python's `-3 // 2 = -2` makes the trailing slice assignment
`curvatures[-3//2:] = curvatures[-3//2 - 1]` write the value of index 1 into
indices 2 and 3, overwriting the computed interior value at index 2 and giving
edge index 3 the value of index 1 rather than of its nearest interior index 2:
the function returns `[0, 0, 0, 0]` where the claimed nearest-interior fill
would give `[0, 0, √2, √2]`. -/
theorem calculate_curvature_trailing_overwrite :
    (curvatureRaw ptsOverwrite 3).getD 2 0 = Real.sqrt 2 ∧
    calculate_curvature ptsOverwrite 3 = .ok (List.replicate 4 0) ∧
    Real.sqrt 2 ≠ 0 := by
  refine ⟨curvatureOverwrite_raw2, ?_, by positivity⟩
  simp only [calculate_curvature]
  rw [if_neg (by decide)]
  exact congrArg Except.ok curvatureOverwrite_final

/-! ## Claim C9: seeded generator determinism and nonnegative rates -/

/-- C9.  With any fixed non-`none` seed and identical parameter values, two
calls of `generate_migration_data` return bit-for-bit identical output
dictionaries (in particular identical curvature and migration-rate arrays)
whatever the ambient global random state of either call; and every generated
migration rate is nonnegative, for every stream, because of the final
`np.maximum(rates, 0)` clamp. -/
theorem generate_migration_data_deterministic_nonneg (n_reaches points_per_reach : ℕ)
    (regulated_fraction time_delta suppression_factor curvature_migration_slope
     noise_level : ℚ) (s : ℕ) (g1 g2 : RNG) :
    (generate_migration_data n_reaches points_per_reach regulated_fraction time_delta
        suppression_factor curvature_migration_slope noise_level (some s) g1).1 =
      (generate_migration_data n_reaches points_per_reach regulated_fraction time_delta
        suppression_factor curvature_migration_slope noise_level (some s) g2).1 ∧
    ∀ r ∈ (generate_migration_data n_reaches points_per_reach regulated_fraction time_delta
        suppression_factor curvature_migration_slope noise_level (some s) g1).1.migration_rates,
      0 ≤ r := by
  constructor
  · rfl
  · intro r hr
    simp only [generate_migration_data, List.mem_map] at hr
    obtain ⟨x, _, rfl⟩ := hr
    exact le_max_right x 0

/-- Witness for C9: two different ambient states, seed 42, one reach with one
point. -/
theorem generate_migration_data_deterministic_nonneg_witness :
    (generate_migration_data 1 1 (1 / 2) 10 (3 / 10) 5 (1 / 5) (some 42)
        ⟨fun _ => 0, 0⟩).1 =
      (generate_migration_data 1 1 (1 / 2) 10 (3 / 10) 5 (1 / 5) (some 42)
        ⟨fun _ => 1, 7⟩).1 ∧
    ∀ r ∈ (generate_migration_data 1 1 (1 / 2) 10 (3 / 10) 5 (1 / 5) (some 42)
        ⟨fun _ => 0, 0⟩).1.migration_rates, 0 ≤ r :=
  generate_migration_data_deterministic_nonneg 1 1 (1 / 2) 10 (3 / 10) 5 (1 / 5) 42
    ⟨fun _ => 0, 0⟩ ⟨fun _ => 1, 7⟩

/-! ## The binning loop: characterisation of the written arrays -/

theorem set_getD_ne {α : Type} (l : List α) (i j : ℕ) (a d : α) (h : i ≠ j) :
    (l.set i a).getD j d = l.getD j d := by
  rw [List.getD_eq_getElem?_getD, List.getElem?_set_ne h, ← List.getD_eq_getElem?_getD]

theorem set_getD_self {α : Type} (l : List α) (i : ℕ) (a d : α) (h : i < l.length) :
    (l.set i a).getD i d = a := by
  rw [List.getD_eq_getElem?_getD]
  simp [List.getElem?_set_self, h]

theorem templateFold_length (c r : List ℚ) (k : ℕ) (L : List ℕ) (acc : List ℚ × List ℝ) :
    (L.foldl (templateStep c r k) acc).1.length = acc.1.length ∧
    (L.foldl (templateStep c r k) acc).2.length = acc.2.length := by
  induction L generalizing acc with
  | nil => exact ⟨rfl, rfl⟩
  | cons i is ih =>
    rw [List.foldl_cons]
    have hstep1 : (templateStep c r k acc i).1.length = acc.1.length := by
      simp only [templateStep]
      split
      · simp
      · rfl
    have hstep2 : (templateStep c r k acc i).2.length = acc.2.length := by
      simp only [templateStep]
      split
      · simp
      · rfl
    obtain ⟨ih1, ih2⟩ := ih (templateStep c r k acc i)
    exact ⟨ih1.trans hstep1, ih2.trans hstep2⟩

theorem templateFold_untouched (c r : List ℚ) (k : ℕ) (L : List ℕ) (acc : List ℚ × List ℝ)
    (j : ℕ) (hj : ∀ i ∈ L, i ≠ j) :
    (L.foldl (templateStep c r k) acc).1.getD j 0 = acc.1.getD j 0 ∧
    (L.foldl (templateStep c r k) acc).2.getD j 0 = acc.2.getD j 0 := by
  induction L generalizing acc with
  | nil => exact ⟨rfl, rfl⟩
  | cons i is ih =>
    rw [List.foldl_cons]
    have hne : i ≠ j := hj i (List.mem_cons_self i is)
    have hstep1 : (templateStep c r k acc i).1.getD j 0 = acc.1.getD j 0 := by
      simp only [templateStep]
      split
      · exact set_getD_ne _ _ _ _ _ hne
      · rfl
    have hstep2 : (templateStep c r k acc i).2.getD j 0 = acc.2.getD j 0 := by
      simp only [templateStep]
      split
      · exact set_getD_ne _ _ _ _ _ hne
      · rfl
    obtain ⟨ih1, ih2⟩ := ih (templateStep c r k acc i)
      (fun x hx => hj x (List.mem_cons_of_mem i hx))
    exact ⟨ih1.trans hstep1, ih2.trans hstep2⟩

theorem templateFold_getD (c r : List ℚ) (k n j : ℕ) (hjn : j < n) (hjk : j < k) :
    (((List.range n).foldl (templateStep c r k)
        (List.replicate k (0 : ℚ), List.replicate k (0 : ℝ))).1.getD j 0 =
      (if binRates c r k j = [] then 0 else npMean (binRates c r k j))) ∧
    (((List.range n).foldl (templateStep c r k)
        (List.replicate k (0 : ℚ), List.replicate k (0 : ℝ))).2.getD j 0 =
      (if binRates c r k j = [] then (0 : ℝ) else npStd (binRates c r k j))) := by
  induction n with
  | zero => omega
  | succ m ih =>
    rw [List.range_succ, List.foldl_append, List.foldl_cons, List.foldl_nil]
    rcases lt_or_ge j m with hjm | hjm
    · have hne : m ≠ j := by omega
      obtain ⟨ih1, ih2⟩ := ih hjm
      constructor
      · refine Eq.trans ?_ ih1
        simp only [templateStep]
        split
        · exact set_getD_ne _ _ _ _ _ hne
        · rfl
      · refine Eq.trans ?_ ih2
        simp only [templateStep]
        split
        · exact set_getD_ne _ _ _ _ _ hne
        · rfl
    · have hjm2 : j = m := by omega
      subst hjm2
      obtain ⟨hl1, hl2⟩ := templateFold_length c r k (List.range j)
        (List.replicate k (0 : ℚ), List.replicate k (0 : ℝ))
      obtain ⟨hu1, hu2⟩ := templateFold_untouched c r k (List.range j)
        (List.replicate k (0 : ℚ), List.replicate k (0 : ℝ)) j
        (by
          intro i hi
          have := List.mem_range.mp hi
          omega)
      have hB1 : ((List.range j).foldl (templateStep c r k)
          (List.replicate k (0 : ℚ), List.replicate k (0 : ℝ))).1.getD j 0 = 0 := by
        rw [hu1]
        exact getD_of_all_eq _ 0 (fun x hx => List.eq_of_mem_replicate hx) j
      have hB2 : ((List.range j).foldl (templateStep c r k)
          (List.replicate k (0 : ℚ), List.replicate k (0 : ℝ))).2.getD j 0 = 0 := by
        rw [hu2]
        exact getD_of_all_eq _ 0 (fun x hx => List.eq_of_mem_replicate hx) j
      constructor
      · simp only [templateStep]
        split
        case isTrue hsel =>
          refine Eq.trans (set_getD_self _ _ _ _ ?_) (if_neg (List.length_pos.mp hsel)).symm
          rw [hl1]
          simpa using hjk
        case isFalse hsel =>
          have hnil : binRates c r k j = [] := by
            have h0 : (binRates c r k j).length = 0 := by omega
            exact List.length_eq_zero.mp h0
          exact hB1.trans (if_pos hnil).symm
      · simp only [templateStep]
        split
        case isTrue hsel =>
          refine Eq.trans (set_getD_self _ _ _ _ ?_) (if_neg (List.length_pos.mp hsel)).symm
          rw [hl2]
          simpa using hjk
        case isFalse hsel =>
          have hnil : binRates c r k j = [] := by
            have h0 : (binRates c r k j).length = 0 := by omega
            exact List.length_eq_zero.mp h0
          exact hB2.trans (if_pos hnil).symm

/-! ## Claim C6: per-bin aggregation and empty bins -/

/-- C6.  For equal-length inputs and positive `bin_count`,
`analyze_migration_template` succeeds, its mean and standard-deviation arrays
have one entry per bin, and entry `i` holds the mean (resp. population standard
deviation, `npStd`) of exactly the rate values whose curvature falls in
`[bins[i], bins[i+1])` (the list `binRates`), while every empty bin holds
`mean = 0` and `std = 0` rather than NaN. -/
theorem analyze_migration_template_bins (curvatures migration_rates : List ℚ)
    (bin_count : ℕ) (hl : curvatures.length = migration_rates.length)
    (_hk : 0 < bin_count) :
    ∃ centers means stds,
      analyze_migration_template curvatures migration_rates bin_count =
        .ok (centers, means, stds) ∧
      centers.length = bin_count ∧ means.length = bin_count ∧ stds.length = bin_count ∧
      ∀ i, i < bin_count →
        means.getD i 0 = (if binRates curvatures migration_rates bin_count i = [] then 0
          else npMean (binRates curvatures migration_rates bin_count i)) ∧
        stds.getD i 0 = (if binRates curvatures migration_rates bin_count i = [] then (0 : ℝ)
          else npStd (binRates curvatures migration_rates bin_count i)) := by
  have hcond : ¬ curvatures.length ≠ migration_rates.length := by simpa using hl
  have heq : analyze_migration_template curvatures migration_rates bin_count =
      .ok ((List.range bin_count).map
            (fun i => ((binEdges curvatures bin_count).getD i 0 +
              (binEdges curvatures bin_count).getD (i + 1) 0) / 2),
          ((List.range bin_count).foldl
            (templateStep curvatures migration_rates bin_count)
            (List.replicate bin_count (0 : ℚ), List.replicate bin_count (0 : ℝ))).1,
          ((List.range bin_count).foldl
            (templateStep curvatures migration_rates bin_count)
            (List.replicate bin_count (0 : ℚ), List.replicate bin_count (0 : ℝ))).2) := by
    simp only [analyze_migration_template]
    rw [if_neg hcond]
  refine ⟨_, _, _, heq, ?_, ?_, ?_, ?_⟩
  · simp
  · exact (templateFold_length curvatures migration_rates bin_count (List.range bin_count)
      (List.replicate bin_count (0 : ℚ), List.replicate bin_count (0 : ℝ))).1.trans
      (by simp)
  · exact (templateFold_length curvatures migration_rates bin_count (List.range bin_count)
      (List.replicate bin_count (0 : ℚ), List.replicate bin_count (0 : ℝ))).2.trans
      (by simp)
  · intro i hik
    exact templateFold_getD curvatures migration_rates bin_count bin_count i hik hik

/-- Witness for C6: two points, one bin. -/
theorem analyze_migration_template_bins_witness :
    ∃ centers means stds,
      analyze_migration_template [0, 1] [2, 3] 1 = .ok (centers, means, stds) ∧
      centers.length = 1 ∧ means.length = 1 ∧ stds.length = 1 ∧
      ∀ i, i < 1 →
        means.getD i 0 = (if binRates [0, 1] [2, 3] 1 i = [] then 0
          else npMean (binRates [0, 1] [2, 3] 1 i)) ∧
        stds.getD i 0 = (if binRates [0, 1] [2, 3] 1 i = [] then (0 : ℝ)
          else npStd (binRates [0, 1] [2, 3] 1 i)) :=
  analyze_migration_template_bins [0, 1] [2, 3] 1 (by decide) (by decide)

/-! ## Claim C7: normalisation and the suppression factor -/

/-- C7.  `compare_regulated_unregulated` normalises each population's binned
mean-rate vector by that population's own maximum plus `1e-10`, and returns
`rate_suppression_factor = mean(regulated means) / (mean(unregulated means)
+ 1e-10)`. -/
theorem compare_regulated_unregulated_spec (regulated_curvatures regulated_rates
    unregulated_curvatures unregulated_rates : List ℚ) (bin_count : ℕ)
    (h1 : regulated_curvatures.length = regulated_rates.length)
    (h2 : unregulated_curvatures.length = unregulated_rates.length) :
    ∃ res, compare_regulated_unregulated regulated_curvatures regulated_rates
        unregulated_curvatures unregulated_rates bin_count = .ok res ∧
      res.regulated_template_normalized =
        res.regulated_mean_rates.map
          (fun m => m / (npMax res.regulated_mean_rates + (1e-10 : ℚ))) ∧
      res.unregulated_template_normalized =
        res.unregulated_mean_rates.map
          (fun m => m / (npMax res.unregulated_mean_rates + (1e-10 : ℚ))) ∧
      res.rate_suppression_factor =
        npMean res.regulated_mean_rates /
          (npMean res.unregulated_mean_rates + (1e-10 : ℚ)) := by
  have hc1 : ¬ regulated_curvatures.length ≠ regulated_rates.length := by simpa using h1
  have hc2 : ¬ unregulated_curvatures.length ≠ unregulated_rates.length := by simpa using h2
  have ha : ∃ t, analyze_migration_template regulated_curvatures regulated_rates bin_count =
      .ok t := by
    simp only [analyze_migration_template]
    rw [if_neg hc1]
    exact ⟨_, rfl⟩
  have hb : ∃ t, analyze_migration_template unregulated_curvatures unregulated_rates
      bin_count = .ok t := by
    simp only [analyze_migration_template]
    rw [if_neg hc2]
    exact ⟨_, rfl⟩
  obtain ⟨⟨b1, m1, s1⟩, ha⟩ := ha
  obtain ⟨⟨b2, m2, s2⟩, hb⟩ := hb
  refine ⟨{ regulated_bins := b1
            regulated_mean_rates := m1
            regulated_std_rates := s1
            unregulated_bins := b2
            unregulated_mean_rates := m2
            unregulated_std_rates := s2
            template_correlation := pearson
              (m1.map (fun m => m / (npMax m1 + (1e-10 : ℚ))))
              (m2.map (fun m => m / (npMax m2 + (1e-10 : ℚ))))
            rate_suppression_factor := npMean m1 / (npMean m2 + (1e-10 : ℚ))
            regulated_template_normalized := m1.map (fun m => m / (npMax m1 + (1e-10 : ℚ)))
            unregulated_template_normalized :=
              m2.map (fun m => m / (npMax m2 + (1e-10 : ℚ))) }, ?_, rfl, rfl, rfl⟩
  simp only [compare_regulated_unregulated, ha, hb]

/-- Witness for C7: concrete two-point populations with two bins. -/
theorem compare_regulated_unregulated_spec_witness :
    ∃ res, compare_regulated_unregulated [0, 1] [1, 2] [0, 1] [3, 4] 2 = .ok res ∧
      res.regulated_template_normalized =
        res.regulated_mean_rates.map
          (fun m => m / (npMax res.regulated_mean_rates + (1e-10 : ℚ))) ∧
      res.unregulated_template_normalized =
        res.unregulated_mean_rates.map
          (fun m => m / (npMax res.unregulated_mean_rates + (1e-10 : ℚ))) ∧
      res.rate_suppression_factor =
        npMean res.regulated_mean_rates /
          (npMean res.unregulated_mean_rates + (1e-10 : ℚ)) :=
  compare_regulated_unregulated_spec [0, 1] [1, 2] [0, 1] [3, 4] 2 (by decide) (by decide)

/-! ## Claim C10: percentile binning silently drops out-of-range points -/

theorem interp_le (A B M frac : ℚ) (hA : A ≤ M) (hB : B ≤ M) (h0 : 0 ≤ frac)
    (h1 : frac ≤ 1) : A + frac * (B - A) ≤ M := by nlinarith

theorem npPercentile_le_npMax (xs : List ℚ) (hne : xs ≠ []) (p : ℚ) (hp0 : 0 ≤ p)
    (hp1 : p ≤ 100) : npPercentile xs p ≤ npMax xs := by
  simp only [npPercentile]
  have hlen : (pySort xs).length = xs.length := length_pySort xs
  have hn1 : 1 ≤ xs.length := Nat.one_le_iff_ne_zero.mpr (by
    intro h0
    exact hne (List.length_eq_zero.mp h0))
  have hnq : (1 : ℚ) ≤ ((pySort xs).length : ℚ) := by
    rw [hlen]
    exact_mod_cast hn1
  set pos : ℚ := p / 100 * (((pySort xs).length : ℚ) - 1) with hposdef
  have hpos0 : 0 ≤ pos := by
    apply mul_nonneg (div_nonneg hp0 (by norm_num))
    linarith
  have hple : p / 100 ≤ 1 := by
    rw [div_le_one (by norm_num : (0 : ℚ) < 100)]
    exact hp1
  have hpos1 : pos ≤ ((pySort xs).length : ℚ) - 1 := by
    calc pos ≤ 1 * (((pySort xs).length : ℚ) - 1) :=
          mul_le_mul_of_nonneg_right hple (by linarith)
      _ = ((pySort xs).length : ℚ) - 1 := one_mul _
  have hfl0 : 0 ≤ ⌊pos⌋ := Int.floor_nonneg.mpr hpos0
  have hlocast : ((⌊pos⌋.toNat : ℕ) : ℚ) = ((⌊pos⌋ : ℤ) : ℚ) := by
    exact_mod_cast Int.toNat_of_nonneg hfl0
  have hlo_le_pos : ((⌊pos⌋.toNat : ℕ) : ℚ) ≤ pos := by
    rw [hlocast]
    exact Int.floor_le pos
  have hlo_lt : ⌊pos⌋.toNat < (pySort xs).length := by
    by_contra hcon
    push_neg at hcon
    have hc2 : (((pySort xs).length : ℕ) : ℚ) ≤ ((⌊pos⌋.toNat : ℕ) : ℚ) := by
      exact_mod_cast hcon
    linarith
  have hceil0 : 0 ≤ ⌈pos⌉ := Int.ceil_nonneg hpos0
  have hhicast : ((⌈pos⌉.toNat : ℕ) : ℚ) = ((⌈pos⌉ : ℤ) : ℚ) := by
    exact_mod_cast Int.toNat_of_nonneg hceil0
  have hceil_le : ((⌈pos⌉.toNat : ℕ) : ℚ) ≤ ((pySort xs).length : ℚ) - 1 := by
    rw [hhicast]
    have h2 : (⌈pos⌉ : ℤ) ≤ ((pySort xs).length : ℤ) - 1 :=
      Int.ceil_le.mpr (by push_cast; linarith)
    have h3 : ((⌈pos⌉ : ℤ) : ℚ) ≤ ((((pySort xs).length : ℤ) - 1 : ℤ) : ℚ) := by
      exact_mod_cast h2
    push_cast at h3
    linarith
  have hhi_lt : ⌈pos⌉.toNat < (pySort xs).length := by
    by_contra hcon
    push_neg at hcon
    have hc2 : (((pySort xs).length : ℕ) : ℚ) ≤ ((⌈pos⌉.toNat : ℕ) : ℚ) := by
      exact_mod_cast hcon
    linarith
  have hmemlo : (pySort xs).getD ⌊pos⌋.toNat 0 ∈ xs :=
    (mem_pySort _ _).mp (getD_mem _ _ _ hlo_lt)
  have hmemhi : (pySort xs).getD ⌈pos⌉.toNat 0 ∈ xs :=
    (mem_pySort _ _).mp (getD_mem _ _ _ hhi_lt)
  have hfr1 : pos - ((⌊pos⌋.toNat : ℕ) : ℚ) ≤ 1 := by
    rw [hlocast]
    have hx := Int.lt_floor_add_one pos
    linarith
  have hfr0 : 0 ≤ pos - ((⌊pos⌋.toNat : ℕ) : ℚ) := by linarith
  exact interp_le _ _ _ _ (mem_le_npMax _ _ hmemlo) (mem_le_npMax _ _ hmemhi) hfr0 hfr1

theorem binEdges_getD (c : List ℚ) (k i : ℕ) (hik : i < k + 1) :
    (binEdges c k).getD i 0 =
      npPercentile c 5 + i * ((npPercentile c 95 - npPercentile c 5) / k) := by
  simp only [binEdges, npLinspace]
  rw [getD_range_map, if_pos hik]
  push_cast
  ring_nf

/-- C10.  In `analyze_migration_template`, the last bin edge is the 95th
percentile, which never exceeds the sample maximum of the curvature data; any
curvature value strictly below the first edge (the 5th percentile) or at or
above the last edge satisfies no bin mask `[bins[i], bins[i+1])`, so the
corresponding pair — in particular every pair carrying the sample maximum — is
excluded from every bin's aggregates. -/
theorem analyze_migration_template_excludes_outliers (curvatures migration_rates : List ℚ)
    (bin_count : ℕ) (hk : 0 < bin_count) (hne : curvatures ≠ []) :
    ((binEdges curvatures bin_count).getD bin_count 0 ≤ npMax curvatures) ∧
    (∀ x : ℚ,
      (x < (binEdges curvatures bin_count).getD 0 0 ∨
        (binEdges curvatures bin_count).getD bin_count 0 ≤ x) →
      ∀ i, i < bin_count →
        ¬((binEdges curvatures bin_count).getD i 0 ≤ x ∧
          x < (binEdges curvatures bin_count).getD (i + 1) 0)) ∧
    (∀ i, i < bin_count → ∀ cr ∈ curvatures.zip migration_rates,
      (cr.1 < (binEdges curvatures bin_count).getD 0 0 ∨
        (binEdges curvatures bin_count).getD bin_count 0 ≤ cr.1) →
      cr ∉ binPairs curvatures migration_rates bin_count i) := by
  have hkq : (0 : ℚ) < (bin_count : ℚ) := by exact_mod_cast hk
  have hek : (binEdges curvatures bin_count).getD bin_count 0 = npPercentile curvatures 95 := by
    rw [binEdges_getD curvatures bin_count bin_count (by omega)]
    field_simp
  have he0 : (binEdges curvatures bin_count).getD 0 0 = npPercentile curvatures 5 := by
    rw [binEdges_getD curvatures bin_count 0 (by omega)]
    simp
  have hmax : (binEdges curvatures bin_count).getD bin_count 0 ≤ npMax curvatures := by
    rw [hek]
    exact npPercentile_le_npMax curvatures hne 95 (by norm_num) (by norm_num)
  have key : ∀ x : ℚ,
      (x < (binEdges curvatures bin_count).getD 0 0 ∨
        (binEdges curvatures bin_count).getD bin_count 0 ≤ x) →
      ∀ i, i < bin_count →
        ¬((binEdges curvatures bin_count).getD i 0 ≤ x ∧
          x < (binEdges curvatures bin_count).getD (i + 1) 0) := by
    intro x hx i hik hcontra
    obtain ⟨hge, hlt⟩ := hcontra
    rw [binEdges_getD curvatures bin_count i (by omega)] at hge
    rw [binEdges_getD curvatures bin_count (i + 1) (by omega)] at hlt
    rw [he0, hek] at hx
    set a := npPercentile curvatures 5 with hadef
    set b := npPercentile curvatures 95 with hbdef
    push_cast at hlt
    rcases le_or_lt a b with hab | hab
    · have hs : 0 ≤ (b - a) / bin_count := div_nonneg (by linarith) (by linarith)
      have hi0 : (0 : ℚ) ≤ (i : ℚ) := by positivity
      rcases hx with hx | hx
      · nlinarith
      · have hi1k : ((i : ℚ) + 1) ≤ (bin_count : ℚ) := by
          have hik2 : i + 1 ≤ bin_count := hik
          exact_mod_cast hik2
        have hkk : a + (bin_count : ℚ) * ((b - a) / bin_count) = b := by field_simp
        nlinarith
    · have hs : (b - a) / bin_count < 0 := div_neg_of_neg_of_pos (by linarith) hkq
      nlinarith
  refine ⟨hmax, key, ?_⟩
  intro i hik cr hmem hx hinpairs
  have h2 := List.mem_filter.mp hinpairs
  have h3 := h2.2
  simp only [Bool.and_eq_true, decide_eq_true_eq] at h3
  exact key cr.1 hx i hik ⟨h3.1, h3.2⟩

/-- Witness for C10: two curvature points, one bin. -/
theorem analyze_migration_template_excludes_outliers_witness :
    ((binEdges [0, 1] 1).getD 1 0 ≤ npMax [0, 1]) ∧
    (∀ x : ℚ,
      (x < (binEdges [0, 1] 1).getD 0 0 ∨ (binEdges [0, 1] 1).getD 1 0 ≤ x) →
      ∀ i, i < 1 →
        ¬((binEdges [0, 1] 1).getD i 0 ≤ x ∧ x < (binEdges [0, 1] 1).getD (i + 1) 0)) ∧
    (∀ i, i < 1 → ∀ cr ∈ ([0, 1] : List ℚ).zip ([1, 2] : List ℚ),
      (cr.1 < (binEdges [0, 1] 1).getD 0 0 ∨ (binEdges [0, 1] 1).getD 1 0 ≤ cr.1) →
      cr ∉ binPairs [0, 1] [1, 2] 1 i) :=
  analyze_migration_template_excludes_outliers [0, 1] [1, 2] 1 (by decide) (by decide)
